import Mathlib

/- Shallow embedding of the scaled keyword research tool.

   Source files:
   - single_keyword_research.py: URL normalization, SERP-overlap scoring and
     the 3-step research pipeline (class KeywordResearcher).
   - batch_keyword_research_optimized.py: TTL cache, rate limiting and the
     parallel batch coordinator (class OptimizedBatchKeywordResearcher).

   Modelling conventions:
   - Python floats are modelled as rationals (ℚ); `round(x, n)` is modelled as
     rounding `x * 10^n` to the nearest integer and dividing back.
   - External HTTP services are modelled as oracle functions passed in as
     arguments (`serp` for `get_keyword_serp_urls`, `ranked` for
     `get_ranked_keywords`); the wire protocol and retries are out of scope.
   - Wall-clock readings (`time.time()`, `datetime.now()`) are passed in as
     explicit rational timestamps.
   - A Python exception escaping a call is modelled with `Except String`.
   - String lowercasing is modelled on the ASCII range (matching the data the
     tool handles); `str.rstrip`, `str.split` and `str.lower` are modelled as
     the corresponding character-list operations. -/

/- normalize_url (single_keyword_research.py, lines 251-265):
   empty input maps to itself; otherwise strip trailing slashes (rstrip),
   then drop everything from the first question mark, then from the first
   hash sign, then lowercase. -/
def normalize_url (url : String) : String :=
  if url = "" then url
  else
    let cs := url.data
    let cs := (cs.reverse.dropWhile (fun c => c == '/')).reverse
    let cs := if cs.contains '?' then cs.takeWhile (fun c => c != '?') else cs
    let cs := if cs.contains '#' then cs.takeWhile (fun c => c != '#') else cs
    ⟨cs.map Char.toLower⟩

/- calculate_url_overlap (single_keyword_research.py, lines 267-293):
   0.0 if either input list is empty; otherwise both lists are normalized
   into sets (here: deduplicated lists of normalized URLs), and the result is
   |set1 ∩ set2| / |set1| * 100, with a defensive `total > 0` guard. -/
def calculate_url_overlap (urls1 urls2 : List String) : ℚ :=
  if urls1 = [] ∨ urls2 = [] then 0
  else
    let normalized_urls1 := (urls1.map normalize_url).dedup
    let normalized_urls2 := (urls2.map normalize_url).dedup
    let overlap := (normalized_urls1.filter (fun u => normalized_urls2.contains u)).length
    let total := normalized_urls1.length
    if 0 < total then ((overlap : ℚ) / (total : ℚ)) * 100 else 0

/- Reference definition of the overlap score, written from the spec text
   (section 4.2): both inputs are normalized into sets; if either input is
   empty the result is 0.0, otherwise |original ∩ candidate| / |original|
   * 100, the denominator being the original set. -/
def overlapReference (original candidate : List String) : ℚ :=
  let s1 : Finset String := (original.map normalize_url).toFinset
  let s2 : Finset String := (candidate.map normalize_url).toFinset
  if original = [] ∨ candidate = [] then 0
  else (((s1 ∩ s2).card : ℚ) / (s1.card : ℚ)) * 100

/- A ranked-keyword record as built by get_ranked_keywords
   (single_keyword_research.py, lines 139-145): keyword text, SERP position,
   and keyword_info metadata.  search_volume and cpc may be JSON null, which
   `dict.get(key, 0)` does not replace, hence Option. -/
structure RankedKeyword where
  keyword : String
  position : ℤ
  search_volume : Option ℤ
  cpc : Option ℚ
  competition : Option ℚ
deriving DecidableEq

/- The `unique_keywords` Python dict of research_keyword (lines 386-394),
   modelled as an insertion-ordered association list, as Python dicts are. -/
abbrev UniqueKeywords := List (String × RankedKeyword)

def lookupKeyword : UniqueKeywords → String → Option RankedKeyword
  | [], _ => none
  | (k, r) :: rest, key => if k = key then some r else lookupKeyword rest key

/- Assignment `unique_keywords[keyword_text] = kw` for a key that is already
   present: Python dicts keep the original insertion position. -/
def updateKeyword : UniqueKeywords → String → RankedKeyword → UniqueKeywords
  | [], _, _ => []
  | (k, r) :: rest, key, v =>
    if k = key then (k, v) :: rest else (k, r) :: updateKeyword rest key v

/- One iteration of the dedup loop (single_keyword_research.py, lines
   387-394): first occurrence of a keyword text is inserted; a later record
   replaces it only when its position is strictly lower. -/
def dedupStep (m : UniqueKeywords) (kw : RankedKeyword) : UniqueKeywords :=
  match lookupKeyword m kw.keyword with
  | none => m ++ [(kw.keyword, kw)]
  | some old => if kw.position < old.position then updateKeyword m kw.keyword kw else m

def dedupKeywords (all_keywords : List RankedKeyword) : UniqueKeywords :=
  all_keywords.foldl dedupStep []

/- `unique_keywords.values()` in first-insertion order. -/
def uniqueKeywordValues (m : UniqueKeywords) : List RankedKeyword :=
  m.map Prod.snd

/- The sort key `lambda x: (-(x['search_volume'] or 0), -(x['cpc'] or 0))`
   (single_keyword_research.py, line 401); `or 0` maps null to 0. -/
def sortKey (r : RankedKeyword) : ℤ × ℚ :=
  (-(r.search_volume.getD 0), -(r.cpc.getD 0))

/- Lexicographic comparison of sort keys, as Python compares tuples. -/
def sortRel (a b : RankedKeyword) : Prop :=
  (sortKey a).1 < (sortKey b).1 ∨
    ((sortKey a).1 = (sortKey b).1 ∧ (sortKey a).2 ≤ (sortKey b).2)

instance : DecidableRel sortRel := fun a b =>
  inferInstanceAs (Decidable ((sortKey a).1 < (sortKey b).1 ∨
    ((sortKey a).1 = (sortKey b).1 ∧ (sortKey a).2 ≤ (sortKey b).2)))

/- `sorted(unique_keywords.values(), key=...)` (lines 399-402): Python's
   sorted is a stable sort, modelled by the stable List.insertionSort. -/
def sortCandidates (l : List RankedKeyword) : List RankedKeyword :=
  l.insertionSort sortRel

/- Python `round(x, 1)` on the overlap percentage (line 444). -/
def roundTo1 (x : ℚ) : ℚ :=
  ((round (x * 10) : ℤ) : ℚ) / 10

/- A supporting-keyword entry as appended at lines 442-449. -/
structure SupportingKeyword where
  keyword : String
  overlap_percentage : ℚ
  search_volume : Option ℤ
  cpc : Option ℚ
  position : ℤ
  top_10_urls : List String
deriving DecidableEq

/- Step 3 of research_keyword (single_keyword_research.py, lines 425-454):
   walk the sorted candidates, stop once 4 supporting keywords are collected;
   candidates whose SERP fetch returns nothing are skipped; a candidate is
   accepted when its overlap with the original top-10 set is at least 40,
   recording the overlap rounded to one decimal. -/
def findSupportingKeywords (serp : String → List String)
    (original_top_10_urls : List String) :
    List RankedKeyword → List SupportingKeyword → List SupportingKeyword
  | [], supporting_keywords => supporting_keywords
  | kw_data :: rest, supporting_keywords =>
    if 4 ≤ supporting_keywords.length then supporting_keywords
    else
      let keyword_urls := serp kw_data.keyword
      if keyword_urls = [] then
        findSupportingKeywords serp original_top_10_urls rest supporting_keywords
      else
        let overlap_percentage := calculate_url_overlap original_top_10_urls keyword_urls
        if 40 ≤ overlap_percentage then
          findSupportingKeywords serp original_top_10_urls rest
            (supporting_keywords ++
              [⟨kw_data.keyword, roundTo1 overlap_percentage, kw_data.search_volume,
                kw_data.cpc, kw_data.position, keyword_urls.take 10⟩])
        else
          findSupportingKeywords serp original_top_10_urls rest supporting_keywords

/- The result dict of research_keyword.  The two early-exit returns (lines
   367-371, 412-421) carry an error message; downstream consumers read the
   missing list fields with `.get(key, [])`, so absent fields are modelled as
   their defaults. -/
structure ResearchResult where
  input_keyword : String
  original_top_10_urls : List String
  keywords_from_top_3_urls : List RankedKeyword
  supporting_keywords : List SupportingKeyword
  total_supporting_keywords_found : ℕ
  error : Option String
deriving DecidableEq

/- research_keyword (single_keyword_research.py, lines 359-472), with the
   two external clients passed as oracles: `serp` is get_keyword_serp_urls
   and `ranked` is get_ranked_keywords.  File output, logging, sleeps and
   timestamps are I/O and are not part of the returned data modelled here. -/
def research_keyword (serp : String → List String)
    (ranked : String → List RankedKeyword) (keyword : String) : ResearchResult :=
  let original_top_10_urls := serp keyword
  if original_top_10_urls = [] then
    { input_keyword := keyword
      original_top_10_urls := []
      keywords_from_top_3_urls := []
      supporting_keywords := []
      total_supporting_keywords_found := 0
      error := some "Failed to get top 10 URLs for the keyword" }
  else
    let all_keywords := (original_top_10_urls.take 3).flatMap ranked
    let sorted_keywords := sortCandidates (uniqueKeywordValues (dedupKeywords all_keywords))
    if sorted_keywords = [] then
      { input_keyword := keyword
        original_top_10_urls := original_top_10_urls
        keywords_from_top_3_urls := []
        supporting_keywords := []
        total_supporting_keywords_found := 0
        error := some "No ranking keywords found from DataForSEO Labs API" }
    else
      let supporting_keywords := findSupportingKeywords serp original_top_10_urls sorted_keywords []
      { input_keyword := keyword
        original_top_10_urls := original_top_10_urls
        keywords_from_top_3_urls := sorted_keywords.take 20
        supporting_keywords := supporting_keywords
        total_supporting_keywords_found := supporting_keywords.length
        error := none }

/- One input item as built by read_keywords_from_csv
   (batch_keyword_research_optimized.py, lines 177-182). -/
structure KeywordInput where
  row_number : ℕ
  keyword : String
  original_row : List (String × String)
deriving DecidableEq

/- The SQLite cache table (batch_keyword_research_optimized.py, lines 79-86):
   rows (key, value, expires_at); key is the primary key so at most one row
   per key.  Timestamps are rationals; V is the stored (JSON) value type. -/
structure CacheState (V : Type) where
  entries : List (String × V × ℚ)
deriving DecidableEq

/- get_cache_key (lines 93-95): an md5 digest of
   `keyword_operation_username`; the digest is modelled by its preimage,
   which is just as injective per (keyword, operation, username). -/
def get_cache_key (username keyword operation : String) : String :=
  keyword ++ "_" ++ operation ++ "_" ++ username

/- get_from_cache (lines 97-116): SELECT value FROM cache WHERE key = ? AND
   expires_at > now, returning the first (only) matching row. -/
def get_from_cache {V : Type} (st : CacheState V) (now : ℚ) (cache_key : String) :
    Option V :=
  (st.entries.find? (fun e => decide (e.1 = cache_key ∧ now < e.2.2))).map (fun e => e.2.1)

/- save_to_cache (lines 118-131): INSERT OR REPLACE with
   expires_at = now + ttl; the primary key makes this replace any previous
   row for the same key. -/
def save_to_cache {V : Type} (st : CacheState V) (now ttl : ℚ) (cache_key : String)
    (data : V) : CacheState V :=
  ⟨(st.entries.filter (fun e => decide (e.1 ≠ cache_key))) ++ [(cache_key, data, now + ttl)]⟩

/- get_cached_or_fetch (lines 142-160).  Python truthiness of the cached /
   fetched JSON value is abstracted by the `truthy` predicate.  The returned
   quadruple is (returned value, cache state afterwards, whether fetch_func
   was invoked, whether rate_limit was invoked); the two Booleans record the
   side effects the source performs on the miss path only. -/
def get_cached_or_fetch {V : Type} (truthy : V → Bool) (st : CacheState V)
    (now ttl : ℚ) (cache_key : String) (fetch_func : Unit → V) :
    V × CacheState V × Bool × Bool :=
  match get_from_cache st now cache_key with
  | some cached_result =>
    if truthy cached_result then (cached_result, st, false, false)
    else
      let result := fetch_func ()
      if truthy result then (result, save_to_cache st now ttl cache_key result, true, true)
      else (result, st, true, true)
  | none =>
    let result := fetch_func ()
    if truthy result then (result, save_to_cache st now ttl cache_key result, true, true)
    else (result, st, true, true)

/- Python `round(x, 2)` as used for processing_time_seconds (line 228). -/
def round2 (x : ℚ) : ℚ :=
  ((round (x * 100) : ℤ) : ℚ) / 100

/- One output row of the batch run.  The dynamic per-supporting-keyword CSV
   columns (lines 236-247) are modelled by `supporting_columns` (keyword,
   overlap, volume, cpc per entry, nulls already replaced by 0 as the source
   does); the original CSV columns merged at lines 249-252 / 270-273 are
   modelled by `original_columns`. -/
structure ResultRow where
  row_number : ℕ
  seed_keyword : String
  processing_time_seconds : ℚ
  original_top_10_urls_count : ℕ
  keywords_from_top_3_urls_count : ℕ
  supporting_keywords_found : ℕ
  research_successful : Bool
  error_message : Option String
  supporting_columns : List (String × ℚ × ℤ × ℚ)
  original_columns : List (String × String)
deriving DecidableEq

/- The fixed keys present in a result_row dict before the original CSV row
   is merged in: the eight base keys plus four keys per supporting keyword
   (none on the failure path). -/
def resultRowKeys (supporting_count : ℕ) : List String :=
  ["row_number", "seed_keyword", "processing_time_seconds",
   "original_top_10_urls_count", "keywords_from_top_3_urls_count",
   "supporting_keywords_found", "research_successful", "error_message"] ++
  (List.range supporting_count).flatMap (fun j =>
    ["supporting_keyword_" ++ toString (j + 1),
     "supporting_keyword_" ++ toString (j + 1) ++ "_overlap",
     "supporting_keyword_" ++ toString (j + 1) ++ "_volume",
     "supporting_keyword_" ++ toString (j + 1) ++ "_cpc"])

/- Lines 249-252: `for key, value in original_row.items(): if key not in
   result_row: result_row[f'original_{key}'] = value`. -/
def mergeOriginalRow (keys : List String) (original_row : List (String × String)) :
    List (String × String) :=
  (original_row.filter (fun p => !(keys.contains p.1))).map
    (fun p => ("original_" ++ p.1, p.2))

/- The success-path result_row of process_single_keyword_optimized (lines
   224-252).  t1 and t2 are the two adjacent time.time() readings of line
   228, in evaluation order. -/
def successRow (kw_data : KeywordInput) (t1 t2 : ℚ)
    (research_results : ResearchResult) : ResultRow :=
  { row_number := kw_data.row_number
    seed_keyword := kw_data.keyword
    processing_time_seconds := round2 (t1 - t2)
    original_top_10_urls_count := research_results.original_top_10_urls.length
    keywords_from_top_3_urls_count := research_results.keywords_from_top_3_urls.length
    supporting_keywords_found := research_results.total_supporting_keywords_found
    research_successful := true
    error_message := none
    supporting_columns := research_results.supporting_keywords.map (fun sk =>
      (sk.keyword, sk.overlap_percentage, sk.search_volume.getD 0, sk.cpc.getD 0))
    original_columns :=
      mergeOriginalRow (resultRowKeys research_results.supporting_keywords.length)
        kw_data.original_row }

/- The except-path result_row of process_single_keyword_optimized (lines
   257-275): processing time hard-coded to 0, counters zeroed, the error
   text recorded, then the original CSV row merged in. -/
def failureRow (kw_data : KeywordInput) (error_message : String) : ResultRow :=
  { row_number := kw_data.row_number
    seed_keyword := kw_data.keyword
    processing_time_seconds := 0
    original_top_10_urls_count := 0
    keywords_from_top_3_urls_count := 0
    supporting_keywords_found := 0
    research_successful := false
    error_message := some error_message
    supporting_columns := []
    original_columns := mergeOriginalRow (resultRowKeys 0) kw_data.original_row }

/- process_single_keyword_optimized (batch_keyword_research_optimized.py,
   lines 196-275).  `research` is KeywordResearcher(...).research_keyword,
   with a possible escaping exception modelled by Except.  On a cache hit
   the cached dict (always a non-empty dict, hence truthy) is reused; on a
   miss the research result is saved to the cache unconditionally before the
   row is built (lines 218-222). -/
def process_single_keyword_optimized (research : String → Except String ResearchResult)
    (username : String) (now ttl t1 t2 : ℚ) (st : CacheState ResearchResult)
    (kw_data : KeywordInput) : ResultRow × CacheState ResearchResult :=
  let cache_key := get_cache_key username kw_data.keyword "full_research"
  match get_from_cache st now cache_key with
  | some cached_result => (successRow kw_data t1 t2 cached_result, st)
  | none =>
    match research kw_data.keyword with
    | .ok research_results =>
      (successRow kw_data t1 t2 research_results,
        save_to_cache st now ttl cache_key research_results)
    | .error e => (failureRow kw_data e, st)

/- The `keywords[:max_keywords]` truncation (lines 282-284); Python treats
   `max_keywords = 0` (and None) as falsy, so only a positive bound
   truncates. -/
def truncateKeywords (keywords : List KeywordInput) (max_keywords : Option ℕ) :
    List KeywordInput :=
  match max_keywords with
  | some m => if m ≠ 0 then keywords.take m else keywords
  | none => keywords

/- The per-future collection step of process_keywords_parallel (lines
   299-325): `future.result()` either yields the pipeline row or raises, in
   which case an error row is appended for that keyword (lines 315-325). -/
def batchOutcome (task : KeywordInput → Except String ResultRow)
    (kw_data : KeywordInput) : ResultRow :=
  match task kw_data with
  | .ok result => result
  | .error e =>
    { row_number := kw_data.row_number
      seed_keyword := kw_data.keyword
      processing_time_seconds := 0
      original_top_10_urls_count := 0
      keywords_from_top_3_urls_count := 0
      supporting_keywords_found := 0
      research_successful := false
      error_message := some e
      supporting_columns := []
      original_columns := [] }

/- process_keywords_parallel (batch_keyword_research_optimized.py, lines
   277-328).  One task per truncated input is submitted to the pool and
   results are collected in as_completed order, i.e. in some permutation
   `completion_order` of the submitted items chosen by the scheduler; a
   non-permutation argument is ignored and submission order is used. -/
def process_keywords_parallel (task : KeywordInput → Except String ResultRow)
    (keywords : List KeywordInput) (max_keywords : Option ℕ)
    (completion_order : List KeywordInput) : List ResultRow :=
  let submitted := truncateKeywords keywords max_keywords
  if completion_order.isPerm submitted then completion_order.map (batchOutcome task)
  else submitted.map (batchOutcome task)

/- Theorems. -/

/- The number of distinct normalized URLs common to both lists, computed on
   the list representation, is the cardinality of the set intersection. -/
theorem overlap_inter_card (u1 u2 : List String) :
    (((u1.map normalize_url).toFinset ∩ (u2.map normalize_url).toFinset).card : ℕ) =
      ((u1.map normalize_url).dedup.filter
        (fun u => (u2.map normalize_url).dedup.contains u)).length := by
  have hnodup : ((u1.map normalize_url).dedup.filter
      (fun u => (u2.map normalize_url).dedup.contains u)).Nodup :=
    (List.nodup_dedup _).filter _
  have hset : ((u1.map normalize_url).dedup.filter
      (fun u => (u2.map normalize_url).dedup.contains u)).toFinset =
      (u1.map normalize_url).toFinset ∩ (u2.map normalize_url).toFinset := by
    ext u
    simp [List.mem_filter, List.mem_dedup]
  rw [← hset, List.toFinset_card_of_nodup hnodup]

/- The size of the normalized-URL set is the length of the deduplicated
   list. -/
theorem overlap_card_left (u1 : List String) :
    ((u1.map normalize_url).toFinset.card : ℕ) = (u1.map normalize_url).dedup.length :=
  List.card_toFinset (u1.map normalize_url)

/-- Claim C1: for every pair of URL lists, calculate_url_overlap agrees with
the reference definition overlapReference (0.0 when either input list is
empty, otherwise |N(original) ∩ N(candidate)| / |N(original)| × 100 over the
sets of normalized URLs); consequently the result always lies in [0, 100],
and a non-empty list compared with itself scores exactly 100. -/
theorem calculate_url_overlap_spec (urls1 urls2 : List String) :
    calculate_url_overlap urls1 urls2 = overlapReference urls1 urls2 ∧
    0 ≤ calculate_url_overlap urls1 urls2 ∧
    calculate_url_overlap urls1 urls2 ≤ 100 ∧
    (urls1 ≠ [] → calculate_url_overlap urls1 urls1 = 100) := by
  have hmain : ∀ v1 v2 : List String, calculate_url_overlap v1 v2 = overlapReference v1 v2 := by
    intro v1 v2
    by_cases h : v1 = [] ∨ v2 = []
    · simp [calculate_url_overlap, overlapReference, h]
    · push_neg at h
      have hne : ¬(v1 = [] ∨ v2 = []) := by
        rintro (h1 | h2)
        · exact h.1 h1
        · exact h.2 h2
      have hd : (v1.map normalize_url).dedup ≠ [] := by
        rw [Ne, List.dedup_eq_nil, List.map_eq_nil_iff]
        exact h.1
      have hpos : 0 < (v1.map normalize_url).dedup.length := List.length_pos.mpr hd
      simp only [calculate_url_overlap, overlapReference, if_neg hne, hpos, if_pos]
      rw [overlap_inter_card, overlap_card_left]
  refine ⟨hmain urls1 urls2, ?_, ?_, ?_⟩
  · by_cases h : urls1 = [] ∨ urls2 = []
    · simp [calculate_url_overlap, h]
    · simp only [calculate_url_overlap, if_neg h]
      split
      · positivity
      · exact le_refl 0
  · by_cases h : urls1 = [] ∨ urls2 = []
    · simp [calculate_url_overlap, h]
    · simp only [calculate_url_overlap, if_neg h]
      split
      · rename_i hpos
        have hle : ((((urls1.map normalize_url).dedup.filter
            (fun u => (urls2.map normalize_url).dedup.contains u)).length : ℚ)) /
            (((urls1.map normalize_url).dedup.length : ℚ)) ≤ 1 := by
          rw [div_le_one (by exact_mod_cast hpos)]
          exact_mod_cast List.length_filter_le _ _
        calc ((((urls1.map normalize_url).dedup.filter
              (fun u => (urls2.map normalize_url).dedup.contains u)).length : ℚ)) /
              (((urls1.map normalize_url).dedup.length : ℚ)) * 100 ≤ 1 * 100 :=
            mul_le_mul_of_nonneg_right hle (by norm_num)
          _ = 100 := by norm_num
      · norm_num
  · intro hne
    have hcond : ¬(urls1 = [] ∨ urls1 = []) := by
      rintro (h | h) <;> exact hne h
    have hd : (urls1.map normalize_url).dedup ≠ [] := by
      rw [Ne, List.dedup_eq_nil, List.map_eq_nil_iff]
      exact hne
    have hpos : 0 < (urls1.map normalize_url).dedup.length := List.length_pos.mpr hd
    have hfilter : (urls1.map normalize_url).dedup.filter
        (fun u => (urls1.map normalize_url).dedup.contains u) =
        (urls1.map normalize_url).dedup := by
      apply List.filter_eq_self.mpr
      intro a ha
      simpa using ha
    simp only [calculate_url_overlap, if_neg hcond, hfilter, hpos, if_pos]
    rw [div_self (by exact_mod_cast hpos.ne')]
    norm_num

/-- Witness for C1 at a concrete input: the list ["a"] is non-empty and its
overlap with itself evaluates to 100. -/
theorem calculate_url_overlap_spec_witness :
    (["a"] : List String) ≠ [] ∧ calculate_url_overlap ["a"] ["a"] = 100 :=
  ⟨by decide, (calculate_url_overlap_spec ["a"] ["a"]).2.2.2 (by decide)⟩

/-- Claim C5, failing input: normalize_url is not idempotent.  On "a/?b" the
trailing-slash strip runs before the query split, so the slash immediately
before the question mark survives one application ("a/") and is only removed
by a second application ("a"), contradicting the documented canonical form
(trailing slash removed) and idempotence. -/
theorem normalize_url_idempotence_failure :
    normalize_url "a/?b" = "a/" ∧
    normalize_url (normalize_url "a/?b") = "a" ∧
    normalize_url (normalize_url "a/?b") ≠ normalize_url "a/?b" :=
  ⟨by decide, by decide, by decide⟩

/- Lookup distributes over association-list concatenation. -/
theorem lookupKeyword_append (m1 m2 : UniqueKeywords) (k : String) :
    lookupKeyword (m1 ++ m2) k = (lookupKeyword m1 k).or (lookupKeyword m2 k) := by
  induction m1 with
  | nil => simp [lookupKeyword]
  | cons e rest ih =>
    obtain ⟨k', r⟩ := e
    by_cases h : k' = k
    · simp [lookupKeyword, h]
    · simp [lookupKeyword, h, ih]

/- Updating a present key makes lookup return the new value. -/
theorem lookupKeyword_update_self (m : UniqueKeywords) (key : String) (v : RankedKeyword)
    (h : (lookupKeyword m key).isSome) :
    lookupKeyword (updateKeyword m key v) key = some v := by
  induction m with
  | nil => simp [lookupKeyword] at h
  | cons e rest ih =>
    obtain ⟨k', r⟩ := e
    by_cases hk : k' = key
    · simp [updateKeyword, lookupKeyword, hk]
    · simp only [lookupKeyword, if_neg hk] at h
      simp only [updateKeyword, if_neg hk, lookupKeyword]
      exact ih h

/- Updating one key leaves lookups of other keys unchanged. -/
theorem lookupKeyword_update_ne (m : UniqueKeywords) (key k : String) (v : RankedKeyword)
    (h : k ≠ key) :
    lookupKeyword (updateKeyword m key v) k = lookupKeyword m k := by
  induction m with
  | nil => simp [updateKeyword]
  | cons e rest ih =>
    obtain ⟨k', r⟩ := e
    by_cases hk : k' = key
    · subst hk
      have hne : ¬(k' = k) := fun hh => h hh.symm
      simp [updateKeyword, lookupKeyword, hne]
    · simp only [updateKeyword, if_neg hk, lookupKeyword]
      by_cases hkk : k' = k
      · simp [hkk]
      · simp [hkk, ih]

/-- Claim C6: stage-2 deduplication keeps, for each keyword text, the record
with the minimum position among all records sharing that text, ties broken in
favor of the first-seen record: the surviving record for key k is exactly
List.argmin of position over the records with that keyword text (argmin
returns the first minimizer of a list). -/
theorem dedupKeywords_spec (l : List RankedKeyword) (k : String) :
    lookupKeyword (dedupKeywords l) k =
      (l.filter (fun r => decide (r.keyword = k))).argmin RankedKeyword.position := by
  induction l using List.reverseRecOn with
  | nil => simp [dedupKeywords, lookupKeyword]
  | append_singleton l x ih =>
    have hfold : dedupKeywords (l ++ [x]) = dedupStep (dedupKeywords l) x := by
      simp [dedupKeywords, List.foldl_append]
    rw [hfold, List.filter_append]
    by_cases hk : x.keyword = k
    · subst hk
      have hfx : List.filter (fun r => decide (r.keyword = x.keyword)) [x] = [x] := by simp
      rw [hfx, List.argmin_concat, ← ih]
      cases hm : lookupKeyword (dedupKeywords l) x.keyword with
      | none =>
        simp only [dedupStep, hm]
        rw [lookupKeyword_append, hm]
        simp [lookupKeyword]
      | some old =>
        simp only [dedupStep, hm]
        by_cases hlt : x.position < old.position
        · rw [if_pos hlt, if_pos hlt]
          have hsome : (lookupKeyword (dedupKeywords l) x.keyword).isSome := by
            rw [hm]; rfl
          exact lookupKeyword_update_self (dedupKeywords l) x.keyword x hsome
        · simp [hlt, hm]
    · have hfx : List.filter (fun r => decide (r.keyword = k)) [x] = [] := by simp [hk]
      rw [hfx, List.append_nil, ← ih]
      cases hm : lookupKeyword (dedupKeywords l) x.keyword with
      | none =>
        simp only [dedupStep, hm]
        rw [lookupKeyword_append]
        simp [lookupKeyword, hk]
      | some old =>
        simp only [dedupStep, hm]
        by_cases hlt : x.position < old.position
        · rw [if_pos hlt]
          exact lookupKeyword_update_ne (dedupKeywords l) x.keyword k x (fun hh => hk hh.symm)
        · simp [hlt]

/- The candidate ordering is total. -/
theorem sortRel_total : ∀ a b : RankedKeyword, sortRel a b ∨ sortRel b a := by
  intro a b
  rcases lt_trichotomy (sortKey a).1 (sortKey b).1 with h | h | h
  · exact Or.inl (Or.inl h)
  · rcases le_total (sortKey a).2 (sortKey b).2 with hle | hle
    · exact Or.inl (Or.inr ⟨h, hle⟩)
    · exact Or.inr (Or.inr ⟨h.symm, hle⟩)
  · exact Or.inr (Or.inl h)

/- The candidate ordering is transitive. -/
theorem sortRel_trans : ∀ a b c : RankedKeyword,
    sortRel a b → sortRel b c → sortRel a c := by
  intro a b c hab hbc
  rcases hab with h1 | ⟨he1, hle1⟩ <;> rcases hbc with h2 | ⟨he2, hle2⟩
  · exact Or.inl (h1.trans h2)
  · exact Or.inl (lt_of_lt_of_eq h1 he2)
  · exact Or.inl (lt_of_eq_of_lt he1 h2)
  · exact Or.inr ⟨he1.trans he2, hle1.trans hle2⟩

/-- Claim C7: the deduplicated candidates are sorted primarily by
search_volume descending and secondarily by cpc descending (sortRel compares
the key (-volume, -cpc) lexicographically), null volume or cpc is treated as
0, the sort is a permutation that is stable with respect to the pre-sort
order (elements with equal sort keys are kept in input order: filtering the
output by any key value gives exactly the input filtered by that key value),
and in particular volumes [10, 10, 5] with cpcs [1, 2, 3] come out ordered
[(10, 2), (10, 1), (5, 3)]. -/
theorem sortCandidates_spec :
    (∀ l : List RankedKeyword, List.Sorted sortRel (sortCandidates l)) ∧
    (∀ l : List RankedKeyword, (sortCandidates l).Perm l) ∧
    (∀ (l : List RankedKeyword) (key : ℤ × ℚ),
      (sortCandidates l).filter (fun r => decide (sortKey r = key)) =
        l.filter (fun r => decide (sortKey r = key))) ∧
    (∀ a b : RankedKeyword, sortRel a b ↔ sortRel
      ⟨a.keyword, a.position, some (a.search_volume.getD 0), some (a.cpc.getD 0),
        a.competition⟩ b) ∧
    sortCandidates
      [⟨"a", 1, some 10, some 1, none⟩, ⟨"b", 2, some 10, some 2, none⟩,
       ⟨"c", 3, some 5, some 3, none⟩] =
      [⟨"b", 2, some 10, some 2, none⟩, ⟨"a", 1, some 10, some 1, none⟩,
       ⟨"c", 3, some 5, some 3, none⟩] := by
  refine ⟨?_, ?_, ?_, ?_, ?_⟩
  · intro l
    exact @List.sorted_insertionSort RankedKeyword sortRel _ ⟨sortRel_total⟩ ⟨sortRel_trans⟩ l
  · intro l
    exact List.perm_insertionSort sortRel l
  · intro l key
    have hsub : List.Sublist (l.filter (fun r => decide (sortKey r = key))) l :=
      List.filter_sublist l
    have hpair : (l.filter (fun r => decide (sortKey r = key))).Pairwise sortRel := by
      apply List.pairwise_of_forall_mem_list
      intro a ha b hb
      have ha' : sortKey a = key := by simpa using (List.mem_filter.mp ha).2
      have hb' : sortKey b = key := by simpa using (List.mem_filter.mp hb).2
      refine Or.inr ⟨?_, ?_⟩
      · rw [ha', hb']
      · rw [ha', hb']
    have h1 : List.Sublist (l.filter (fun r => decide (sortKey r = key))) (sortCandidates l) :=
      List.sublist_insertionSort hpair hsub
    have h2 : ((sortCandidates l).filter (fun r => decide (sortKey r = key))).Perm
        (l.filter (fun r => decide (sortKey r = key))) :=
      (List.perm_insertionSort sortRel l).filter _
    have h3 : ((l.filter (fun r => decide (sortKey r = key))).filter
        (fun r => decide (sortKey r = key))) = l.filter (fun r => decide (sortKey r = key)) :=
      List.filter_eq_self.mpr (fun a ha => (List.mem_filter.mp ha).2)
    have h4 : List.Sublist (l.filter (fun r => decide (sortKey r = key)))
        ((sortCandidates l).filter (fun r => decide (sortKey r = key))) := by
      rw [← h3]
      exact h1.filter _
    exact (h4.eq_of_length (by rw [h2.length_eq])).symm
  · intro a b
    exact Iff.rfl
  · decide

/- Rounding the overlap percentage to one decimal cannot drop it below the
   40 threshold. -/
theorem le_roundTo1 {x : ℚ} (h : 40 ≤ x) : 40 ≤ roundTo1 x := by
  unfold roundTo1
  rw [le_div_iff₀ (by norm_num : (0:ℚ) < 10)]
  have h400 : (400 : ℤ) ≤ round (x * 10) := by
    rw [round_eq]
    rw [Int.le_floor]
    push_cast
    linarith
  calc (40 : ℚ) * 10 = ((400 : ℤ) : ℚ) := by norm_num
    _ ≤ ((round (x * 10) : ℤ) : ℚ) := by exact_mod_cast h400

/- The stage-3 scan invariant: starting from an accumulator that satisfies
   the bound and the threshold, the scan result still does. -/
theorem findSupportingKeywords_invariant (serp : String → List String)
    (original_top_10_urls : List String) :
    ∀ (cands : List RankedKeyword) (acc : List SupportingKeyword),
      acc.length ≤ 4 → (∀ sk ∈ acc, 40 ≤ sk.overlap_percentage) →
      (findSupportingKeywords serp original_top_10_urls cands acc).length ≤ 4 ∧
      ∀ sk ∈ findSupportingKeywords serp original_top_10_urls cands acc,
        40 ≤ sk.overlap_percentage := by
  intro cands
  induction cands with
  | nil =>
    intro acc h1 h2
    exact ⟨h1, h2⟩
  | cons c rest ih =>
    intro acc h1 h2
    unfold findSupportingKeywords
    by_cases hfull : 4 ≤ acc.length
    · rw [if_pos hfull]
      exact ⟨h1, h2⟩
    · rw [if_neg hfull]
      by_cases hurls : serp c.keyword = []
      · rw [if_pos hurls]
        exact ih acc h1 h2
      · rw [if_neg hurls]
        by_cases hov : 40 ≤ calculate_url_overlap original_top_10_urls (serp c.keyword)
        · rw [if_pos hov]
          apply ih
          · rw [List.length_append, List.length_singleton]
            omega
          · intro sk hsk
            rcases List.mem_append.mp hsk with hmem | hmem
            · exact h2 sk hmem
            · rw [List.mem_singleton.mp hmem]
              exact le_roundTo1 hov
        · rw [if_neg hov]
          exact ih acc h1 h2

/-- Claim C2: for every run of research_keyword (over any pair of external
service oracles), the supporting_keywords list of the returned result has at
most 4 entries and every entry records an overlap_percentage of at least
40.0. -/
theorem research_keyword_supporting_spec (serp : String → List String)
    (ranked : String → List RankedKeyword) (keyword : String) :
    (research_keyword serp ranked keyword).supporting_keywords.length ≤ 4 ∧
    ∀ sk ∈ (research_keyword serp ranked keyword).supporting_keywords,
      40 ≤ sk.overlap_percentage := by
  unfold research_keyword
  by_cases h1 : serp keyword = []
  · rw [if_pos h1]
    exact ⟨by simp, by simp⟩
  · rw [if_neg h1]
    by_cases h2 : sortCandidates (uniqueKeywordValues (dedupKeywords
        ((serp keyword).take 3 |>.flatMap ranked))) = []
    · simp only [h2, if_pos]
      exact ⟨by simp, by simp⟩
    · simp only [h2, if_neg, reduceIte]
      exact findSupportingKeywords_invariant serp (serp keyword) _ []
        (by simp) (by simp)

/-- Witness for C2 at concrete oracles: a run whose stage-1 SERP fetch
returns one URL and whose harvest returns nothing still satisfies the
supporting-keyword bound. -/
theorem research_keyword_supporting_spec_witness :
    (research_keyword (fun _ => ["u1"]) (fun _ => []) "seo").supporting_keywords.length ≤ 4 :=
  (research_keyword_supporting_spec (fun _ => ["u1"]) (fun _ => []) "seo").1

/- A fresh cache entry written by save_to_cache is served by any later
   lookup that happens strictly before its expiry. -/
theorem get_from_cache_after_save {V : Type} (st : CacheState V) (now1 now2 ttl : ℚ)
    (cache_key : String) (v : V) (h : now2 < now1 + ttl) :
    get_from_cache (save_to_cache st now1 ttl cache_key v) now2 cache_key = some v := by
  unfold get_from_cache save_to_cache
  rw [List.find?_append]
  have h1 : (st.entries.filter (fun e => decide (e.1 ≠ cache_key))).find?
      (fun e => decide (e.1 = cache_key ∧ now2 < e.2.2)) = none := by
    rw [List.find?_eq_none]
    intro e he
    have h2 : e.1 ≠ cache_key := by simpa using (List.mem_filter.mp he).2
    simp [h2]
  rw [h1]
  simp [List.find?, h]

/-- Claim C4, counterexample: the claim does not hold for every compute
function.  A compute function returning an empty (falsy) value is not
cached, so a second get_cached_or_fetch call with the same key within the
TTL window invokes the compute function again (the third component of the
result records that fetch_func was invoked). -/
theorem get_cached_or_fetch_refetches_empty :
    (get_cached_or_fetch (fun v : List (String × String) => !v.isEmpty)
      (get_cached_or_fetch (fun v : List (String × String) => !v.isEmpty)
        ⟨[]⟩ 0 24 "k" (fun _ => [])).2.1
      1 24 "k" (fun _ => [])).2.2.1 = true := by decide

/-- Claim C4, amended: provided the first call's computed value is truthy
(non-empty), a second get_cached_or_fetch call with the same key before the
entry's TTL expiry does not invoke the compute function or the rate limiter
(both side-effect flags are false), leaves the cache unchanged, and returns
data identical to what the first call returned. -/
theorem get_cached_or_fetch_cached_spec {V : Type} (truthy : V → Bool)
    (st0 : CacheState V) (now1 now2 ttl : ℚ) (cache_key : String)
    (fetch1 fetch2 : Unit → V)
    (hmiss : ∀ v, get_from_cache st0 now1 cache_key = some v → truthy v = false)
    (htruthy : truthy (fetch1 ()) = true)
    (hfresh : now2 < now1 + ttl) :
    (get_cached_or_fetch truthy st0 now1 ttl cache_key fetch1).1 = fetch1 () ∧
    get_cached_or_fetch truthy (get_cached_or_fetch truthy st0 now1 ttl cache_key fetch1).2.1
        now2 ttl cache_key fetch2 =
      (fetch1 (), (get_cached_or_fetch truthy st0 now1 ttl cache_key fetch1).2.1,
        false, false) := by
  have hfirst : get_cached_or_fetch truthy st0 now1 ttl cache_key fetch1 =
      (fetch1 (), save_to_cache st0 now1 ttl cache_key (fetch1 ()), true, true) := by
    unfold get_cached_or_fetch
    cases h0 : get_from_cache st0 now1 cache_key with
    | none => simp [htruthy]
    | some v =>
      have hv := hmiss v h0
      simp [hv, htruthy]
  refine ⟨by rw [hfirst], ?_⟩
  rw [hfirst]
  unfold get_cached_or_fetch
  rw [get_from_cache_after_save st0 now1 now2 ttl cache_key (fetch1 ()) hfresh]
  simp [htruthy]

/-- Witness for amended C4 at a concrete cache: a first call at time 0 with
TTL 24 caches a non-empty value, and a second call at time 1 with a
different compute function returns the first value without invoking its
compute function or the rate limiter. -/
theorem get_cached_or_fetch_cached_spec_witness :
    get_from_cache (⟨[]⟩ : CacheState (List (String × String))) 0 "k" = none ∧
    (!([("a", "b")] : List (String × String)).isEmpty) = true ∧
    ((1 : ℚ) < 0 + 24) ∧
    get_cached_or_fetch (fun v : List (String × String) => !v.isEmpty)
        (get_cached_or_fetch (fun v : List (String × String) => !v.isEmpty)
          ⟨[]⟩ 0 24 "k" (fun _ => [("a", "b")])).2.1 1 24 "k" (fun _ => [("c", "d")]) =
      ([("a", "b")],
        (get_cached_or_fetch (fun v : List (String × String) => !v.isEmpty)
          ⟨[]⟩ 0 24 "k" (fun _ => [("a", "b")])).2.1, false, false) :=
  ⟨rfl, by decide, by norm_num,
    (get_cached_or_fetch_cached_spec (fun v : List (String × String) => !v.isEmpty)
      ⟨[]⟩ 0 1 24 "k" (fun _ => [("a", "b")]) (fun _ => [("c", "d")])
      (fun v h => Option.noConfusion h) (by decide) (by norm_num)).2⟩

/-- Claim C8, counterexample: a failed research outcome is persisted to the
cache.  With a SERP oracle that returns nothing, research_keyword returns an
error-carrying result, and process_single_keyword_optimized saves exactly
that result to the cache store on the miss path. -/
theorem process_single_caches_failed_outcome :
    ((process_single_keyword_optimized
      (fun k => .ok (research_keyword (fun _ => []) (fun _ => []) k)) "user"
      0 24 0 0 ⟨[]⟩ ⟨1, "seo", []⟩).2.entries.map (fun e => e.2.1.error)) =
    [some "Failed to get top 10 URLs for the keyword"] := by decide

/-- Claim C8, amended: on a cache miss, process_single_keyword_optimized
persists the research outcome to the cache store unconditionally — whether
or not the outcome carries an error — so cache entries are created on the
first completed fetch, successful or not. -/
theorem process_single_persists_on_miss (research : String → Except String ResearchResult)
    (username : String) (now ttl t1 t2 : ℚ) (st : CacheState ResearchResult)
    (kw_data : KeywordInput) (research_results : ResearchResult)
    (hmiss : get_from_cache st now
      (get_cache_key username kw_data.keyword "full_research") = none)
    (hok : research kw_data.keyword = .ok research_results) :
    (process_single_keyword_optimized research username now ttl t1 t2 st kw_data).2 =
      save_to_cache st now ttl (get_cache_key username kw_data.keyword "full_research")
        research_results ∧
    (get_cache_key username kw_data.keyword "full_research", research_results, now + ttl) ∈
      (process_single_keyword_optimized research username now ttl t1 t2 st
        kw_data).2.entries := by
  have h : (process_single_keyword_optimized research username now ttl t1 t2 st kw_data).2 =
      save_to_cache st now ttl (get_cache_key username kw_data.keyword "full_research")
        research_results := by
    simp only [process_single_keyword_optimized, hmiss, hok]
  refine ⟨h, ?_⟩
  rw [h]
  simp [save_to_cache]

/-- Witness for amended C8 at a concrete input: starting from an empty
cache, processing "seo" with a research oracle that fails at stage 1
persists that error-carrying result. -/
theorem process_single_persists_on_miss_witness :
    get_from_cache (⟨[]⟩ : CacheState ResearchResult) 0
        (get_cache_key "user" "seo" "full_research") = none ∧
    (process_single_keyword_optimized
        (fun k => .ok (research_keyword (fun _ => []) (fun _ => []) k)) "user"
        0 24 0 0 ⟨[]⟩ ⟨1, "seo", []⟩).2 =
      save_to_cache ⟨[]⟩ 0 24 (get_cache_key "user" "seo" "full_research")
        (research_keyword (fun _ => []) (fun _ => []) "seo") :=
  ⟨rfl, (process_single_persists_on_miss
    (fun k => .ok (research_keyword (fun _ => []) (fun _ => []) k)) "user"
    0 24 0 0 ⟨[]⟩ ⟨1, "seo", []⟩
    (research_keyword (fun _ => []) (fun _ => []) "seo") rfl rfl).1⟩

/- Rounding a rational in [-1/200, 0] to two decimals yields exactly 0. -/
theorem round2_eq_zero {x : ℚ} (h0 : x ≤ 0) (h1 : -(1 / 200) ≤ x) : round2 x = 0 := by
  unfold round2
  have hr : round (x * 100) = 0 := by
    rw [round_eq, Int.floor_eq_zero_iff, Set.mem_Ico]
    constructor
    · linarith
    · linarith
  rw [hr]
  norm_num

/-- Claim C10: every outcome row produced by process_single_keyword_optimized
reports processing_time_seconds equal to 0.  The success paths compute
round(t1 - t2, 2) for two adjacent time.time() readings t1 ≤ t2 (so the
difference is a non-positive quantity below the rounding granularity), and
the failure path hard-codes 0; the per-keyword processing time is never
actually measured. -/
theorem process_single_zero_processing_time (research : String → Except String ResearchResult)
    (username : String) (now ttl t1 t2 : ℚ) (st : CacheState ResearchResult)
    (kw_data : KeywordInput) (h1 : t1 ≤ t2) (h2 : t2 - t1 ≤ 1 / 200) :
    ((process_single_keyword_optimized research username now ttl t1 t2 st
      kw_data).1).processing_time_seconds = 0 := by
  have hz : round2 (t1 - t2) = 0 := round2_eq_zero (by linarith) (by linarith)
  simp only [process_single_keyword_optimized]
  cases hm : get_from_cache st now (get_cache_key username kw_data.keyword "full_research") with
  | some cached => simp [successRow, hz]
  | none =>
    cases hr : research kw_data.keyword with
    | ok rr => simp [successRow, hz]
    | error e => simp [failureRow]

/-- Witness for C10 at a concrete input: with both clock readings at 0 and a
research oracle that raises, the produced row reports zero processing
time. -/
theorem process_single_zero_processing_time_witness :
    ((0 : ℚ) ≤ 0) ∧ ((0 : ℚ) - 0 ≤ 1 / 200) ∧
    ((process_single_keyword_optimized (fun _ => .error "boom") "user" 0 24 0 0
      ⟨[]⟩ ⟨1, "seo", []⟩).1).processing_time_seconds = 0 :=
  ⟨by norm_num, by norm_num,
    process_single_zero_processing_time (fun _ => .error "boom") "user" 0 24 0 0
      ⟨[]⟩ ⟨1, "seo", []⟩ (by norm_num) (by norm_num)⟩

/-- Claim C3: for every batch (after the optional max_keywords truncation)
and every completion order the scheduler may produce, the coordinator
returns exactly one outcome row per submitted keyword (the completion-order
map of per-item outcomes, hence exactly K rows, a permutation of the
submission-order outcomes), every outcome row carries the row_number of its
input (both on the pipeline path and on the exception path), and a pipeline
exception is converted into a failure outcome carrying the error text for
that keyword only, without dropping or aborting any other item. -/
theorem process_keywords_parallel_spec (task : KeywordInput → Except String ResultRow)
    (keywords : List KeywordInput) (max_keywords : Option ℕ)
    (completion_order : List KeywordInput)
    (hperm : completion_order.Perm (truncateKeywords keywords max_keywords))
    (htask : ∀ kw_data result, task kw_data = .ok result →
      result.row_number = kw_data.row_number) :
    process_keywords_parallel task keywords max_keywords completion_order =
      completion_order.map (batchOutcome task) ∧
    (process_keywords_parallel task keywords max_keywords completion_order).length =
      (truncateKeywords keywords max_keywords).length ∧
    (process_keywords_parallel task keywords max_keywords completion_order).Perm
      ((truncateKeywords keywords max_keywords).map (batchOutcome task)) ∧
    (∀ kw_data, (batchOutcome task kw_data).row_number = kw_data.row_number) ∧
    (∀ kw_data e, task kw_data = .error e →
      (batchOutcome task kw_data).research_successful = false ∧
      (batchOutcome task kw_data).error_message = some e) ∧
    (∀ (research : String → Except String ResearchResult) (username : String)
      (now ttl t1 t2 : ℚ) (st : CacheState ResearchResult) (kw_data : KeywordInput),
      ((process_single_keyword_optimized research username now ttl t1 t2 st
        kw_data).1).row_number = kw_data.row_number) := by
  have heq : process_keywords_parallel task keywords max_keywords completion_order =
      completion_order.map (batchOutcome task) := by
    simp only [process_keywords_parallel]
    rw [if_pos (List.isPerm_iff.mpr hperm)]
  refine ⟨heq, ?_, ?_, ?_, ?_, ?_⟩
  · rw [heq, List.length_map, hperm.length_eq]
  · rw [heq]
    exact hperm.map _
  · intro kw_data
    simp only [batchOutcome]
    cases h : task kw_data with
    | ok r => exact htask kw_data r h
    | error e => rfl
  · intro kw_data e h
    simp [batchOutcome, h]
  · intro research username now ttl t1 t2 st kw_data
    simp only [process_single_keyword_optimized]
    cases hm : get_from_cache st now
        (get_cache_key username kw_data.keyword "full_research") with
    | some cached => rfl
    | none =>
      cases hr : research kw_data.keyword with
      | ok rr => rfl
      | error e => rfl

/-- Witness for C3 at a concrete batch: two keywords, a task that always
raises, and a completion order that swaps them still yield exactly two
outcome rows. -/
theorem process_keywords_parallel_spec_witness :
    ([⟨2, "b", []⟩, ⟨1, "a", []⟩] : List KeywordInput).Perm
      (truncateKeywords [⟨1, "a", []⟩, ⟨2, "b", []⟩] none) ∧
    (process_keywords_parallel (fun _ => .error "boom")
      [⟨1, "a", []⟩, ⟨2, "b", []⟩] none [⟨2, "b", []⟩, ⟨1, "a", []⟩]).length =
      (truncateKeywords [⟨1, "a", []⟩, ⟨2, "b", []⟩] none).length :=
  ⟨by decide,
    (process_keywords_parallel_spec (fun _ => .error "boom")
      [⟨1, "a", []⟩, ⟨2, "b", []⟩] none [⟨2, "b", []⟩, ⟨1, "a", []⟩]
      (by decide) (fun kw_data r h => Except.noConfusion h)).2.1⟩
